import Mathlib

/-!
Shallow embedding of `scripts/check_3pp_licenses.js`: a CLI utility that runs
the dash-licenses scanner, parses its comma-space-separated summary file,
keeps the entries whose status is "restricted", reconciles them against a
JSON baseline allow-list, prints diagnostics and exits 0 or 1.

JavaScript values are modelled as follows: parsed JSON documents become the
inductive `Json` (JSON numbers carry an integer payload here; no claim
inspects a numeric value, only the shape of the root and truthiness of
annotations, and `0` is the only falsy numeric that `JSON.parse` can
produce of integral value); `undefined` string fields become `Option
String`; a thrown exception propagating to `main().catch` becomes
`Except String`; `process.exit` codes become `ExitCode`; console output
becomes a list of `OutLine` events in emission order.
-/

namespace ThreePP

/-- A parsed JSON document (`JSON.parse` result). -/
inductive Json where
  | null : Json
  | bool (b : Bool) : Json
  | num (n : Int) : Json
  | str (s : String) : Json
  | arr (elems : List Json) : Json
  | obj (fields : List (String × Json)) : Json
deriving Repr

mutual

/-- Structural equality test on JSON documents. It models the JavaScript
`Map`/`Set` SameValueZero key comparison at every key shape the script can
actually look up (the script only ever looks up strings, and `JSON.parse`
yields strings, numbers, booleans and null by value). -/
def jsonBeq : Json → Json → Bool
  | .null, .null => true
  | .bool a, .bool b => a == b
  | .num a, .num b => a == b
  | .str a, .str b => a == b
  | .arr a, .arr b => jsonListBeq a b
  | .obj a, .obj b => jsonKVBeq a b
  | _, _ => false

/-- Elementwise `jsonBeq` on lists. -/
def jsonListBeq : List Json → List Json → Bool
  | [], [] => true
  | a :: as, b :: bs => jsonBeq a b && jsonListBeq as bs
  | _, _ => false

/-- Fieldwise `jsonBeq` on key/value lists. -/
def jsonKVBeq : List (String × Json) → List (String × Json) → Bool
  | [], [] => true
  | (k₁, v₁) :: as, (k₂, v₂) :: bs => k₁ == k₂ && jsonBeq v₁ v₂ && jsonKVBeq as bs
  | _, _ => false

end

theorem jsonListBeq_eq_true_iff (as bs : List Json)
    (h : ∀ x ∈ as, ∀ b, jsonBeq x b = true ↔ x = b) :
    jsonListBeq as bs = true ↔ as = bs := by
  induction as generalizing bs with
  | nil => cases bs <;> simp [jsonListBeq]
  | cons a as ih =>
    cases bs with
    | nil => simp [jsonListBeq]
    | cons b bs =>
      have ha := h a (by simp)
      have hrest : ∀ x ∈ as, ∀ b, jsonBeq x b = true ↔ x = b :=
        fun x hx => h x (by simp [hx])
      have htail := ih bs hrest
      simp [jsonListBeq, ha, htail]

theorem jsonKVBeq_eq_true_iff (as bs : List (String × Json))
    (h : ∀ p ∈ as, ∀ b, jsonBeq p.2 b = true ↔ p.2 = b) :
    jsonKVBeq as bs = true ↔ as = bs := by
  induction as generalizing bs with
  | nil => cases bs <;> simp [jsonKVBeq]
  | cons a as ih =>
    cases bs with
    | nil => simp [jsonKVBeq]
    | cons b bs =>
      obtain ⟨k₁, v₁⟩ := a
      obtain ⟨k₂, v₂⟩ := b
      have ha := h (k₁, v₁) (by simp)
      have hrest : ∀ p ∈ as, ∀ b, jsonBeq p.2 b = true ↔ p.2 = b :=
        fun p hp => h p (by simp [hp])
      have htail := ih bs hrest
      simp only [] at ha
      simp [jsonKVBeq, ha, htail, Prod.ext_iff, and_assoc]

theorem jsonBeq_eq_true_iff : ∀ a b : Json, jsonBeq a b = true ↔ a = b := by
  have H : ∀ n, ∀ a : Json, sizeOf a ≤ n → ∀ b, (jsonBeq a b = true ↔ a = b) := by
    intro n
    induction n with
    | zero =>
      intro a ha
      exfalso
      cases a <;> simp_all
    | succ n ih =>
      intro a ha b
      cases a with
      | null => cases b <;> simp [jsonBeq]
      | bool x => cases b <;> simp [jsonBeq]
      | num x => cases b <;> simp [jsonBeq]
      | str x => cases b <;> simp [jsonBeq]
      | arr xs =>
        cases b <;> simp [jsonBeq]
        apply jsonListBeq_eq_true_iff
        intro x hx
        apply ih
        have hlt : sizeOf x < sizeOf xs := List.sizeOf_lt_of_mem hx
        have : sizeOf (Json.arr xs) = 1 + sizeOf xs := by simp
        omega
      | obj kvs =>
        cases b <;> simp [jsonBeq]
        apply jsonKVBeq_eq_true_iff
        intro p hp
        apply ih
        have hlt : sizeOf p < sizeOf kvs := List.sizeOf_lt_of_mem hp
        obtain ⟨k, v⟩ := p
        have h1 : sizeOf (Json.obj kvs) = 1 + sizeOf kvs := by simp
        have h2 : sizeOf (k, v) = 1 + sizeOf k + sizeOf v := by simp
        have h3 : sizeOf (k, v).2 = sizeOf v := rfl
        omega
  exact fun a b => H (sizeOf a) a le_rfl b

instance : DecidableEq Json := fun a b =>
  decidable_of_iff (jsonBeq a b = true) (jsonBeq_eq_true_iff a b)

instance : BEq Json := ⟨jsonBeq⟩

instance : LawfulBEq Json where
  eq_of_beq h := (jsonBeq_eq_true_iff _ _).mp h
  rfl := (jsonBeq_eq_true_iff _ _).mpr rfl

/-- JavaScript truthiness (`if (data)`) restricted to values `JSON.parse`
can produce: `null`, `false`, `0` and `""` are falsy; arrays and objects
are always truthy. -/
def Json.truthy : Json → Bool
  | .null => false
  | .bool b => b
  | .num n => n != 0
  | .str s => s != ""
  | .arr _ => true
  | .obj _ => true

/-- One record of the dash-licenses summary file (`DashSummaryEntry`).
`line.split(', ')` always yields at least one element, so `dependency` is
always a string; the three trailing fields may be `undefined` when the
line holds fewer than four comma-space-separated fields. -/
structure DashSummaryEntry where
  dependency : String
  license : Option String
  status : Option String
  source : Option String
deriving Repr, DecidableEq

/-- `line.split(', ')` over the character list: scan left to right, at
each position either matching the two-character separator (ending the
current field) or consuming one character into it. This is exactly the
leftmost-match split of `String.prototype.split` with a string
separator. -/
def splitCommaSpace : List Char → List Char → List (List Char)
  | acc, [] => [acc.reverse]
  | acc, ',' :: ' ' :: rest => acc.reverse :: splitCommaSpace [] rest
  | acc, c :: rest => splitCommaSpace (c :: acc) rest

/-- `line.split(', ')`. Always returns at least one element. -/
def jsSplitCommaSpace (line : String) : List String :=
  (splitCommaSpace [] line.toList).map fun cs => String.mk cs

/-- `s.toLocaleLowerCase()` as characterwise lowering. On the ASCII
status tags dash-licenses emits this agrees with the host's
locale-sensitive lowering in the default locale. -/
def jsToLower (s : String) : String :=
  String.mk (s.toList.map Char.toLower)

/-- `const [dependency, license, status, source] = line.split(', ')`:
one step of `readSummaryLines`. -/
def parseLine (line : String) : DashSummaryEntry :=
  let fields := jsSplitCommaSpace line
  { dependency := fields.headD ""
    license := fields[1]?
    status := fields[2]?
    source := fields[3]? }

/-- `readSummaryLines`: each line of the summary file is split on the
literal separator `", "` into the four ordered fields. -/
def readSummaryLines (lines : List String) : List DashSummaryEntry :=
  lines.map parseLine

/-- JavaScript template-literal rendering of a possibly-`undefined`
string (`undefined` prints as the text `undefined`). -/
def jsShowOpt : Option String → String
  | none => "undefined"
  | some s => s

/-- One console line. Lines whose text interpolates a baseline key (a JS
`Map` key, an arbitrary JSON value) are kept structured rather than
rendered, so no host `util.inspect`/`toString` formatting is modelled. -/
inductive OutLine where
  | info (s : String) : OutLine
  | warn (s : String) : OutLine
  | error (s : String) : OutLine
  | unmatchedKey (k : Json) : OutLine
  | unmatchedData (k : Json) (data : Json) : OutLine
  | restrictedEntry (s : String) : OutLine
deriving Repr, DecidableEq

/-- Process exit code: the script only ever exits 0 or 1. -/
inductive ExitCode where
  | zero : ExitCode
  | one : ExitCode
deriving Repr, DecidableEq

/-- `logRestrictedDashSummaryEntries`: prints each entry as
`X ${dependency}, ${license}` (red). -/
def logRestrictedDashSummaryEntries (entries : List DashSummaryEntry) : List OutLine :=
  entries.map fun e =>
    .restrictedEntry ("X " ++ e.dependency ++ ", " ++ jsShowOpt e.license)

/-! ## The baseline map

A JavaScript `Map` is an insertion-ordered association list with unique
keys. Keys here are arbitrary JSON values because `readBaseline` feeds
raw array elements into `new Map(...)`; SameValueZero key comparison is
modelled by structural equality (the two differ only on distinct object
references with equal structure, which no claim and no lookup of the
script can distinguish: the script only ever looks up string keys). -/

abbrev BaselineMap := List (Json × Json)

/-- `Map.prototype.set`: an existing key keeps its position and receives
the new value; a fresh key is appended at the end. -/
def mapSet (m : BaselineMap) (k v : Json) : BaselineMap :=
  if m.any (fun p => p.1 == k) then
    m.map (fun p => if p.1 == k then (p.1, v) else p)
  else m ++ [(k, v)]

/-- `new Map(pairs)`: insert every pair in order. -/
def mapOfList (l : List (Json × Json)) : BaselineMap :=
  l.foldl (fun m p => mapSet m p.1 p.2) []

/-- `Map.prototype.has`. -/
def mapHas (m : BaselineMap) (k : Json) : Bool :=
  m.any (fun p => p.1 == k)

/-- `Map.prototype.get` (`none` models `undefined`). -/
def mapGet (m : BaselineMap) (k : Json) : Option Json :=
  (m.find? (fun p => p.1 == k)).map Prod.snd

/-- `Map.prototype.keys()`, in insertion order. -/
def mapKeys (m : BaselineMap) : List Json :=
  m.map Prod.fst

/-- `readBaseline` minus the I/O: dispatch on the shape of the parsed
JSON root. An array yields a map from each element to `null`; a non-null
object yields a map of its key/value entries; any other root makes the
script print `ERROR: Invalid format ...` and exit 1, modelled by `none`. -/
def readBaseline : Json → Option BaselineMap
  | .arr elems => some (mapOfList (elems.map fun e => (e, Json.null)))
  | .obj fields => some (mapOfList (fields.map fun p => (Json.str p.1, p.2)))
  | _ => none

/-! ## The classifier -/

/-- `entry.status.toLocaleLowerCase() === 'restricted'`. When `status` is
`undefined` (a summary line with fewer than three comma-space-separated
fields) the property access throws a `TypeError`, which propagates to
`main().catch` — modelled by `Except.error`. `toLocaleLowerCase` agrees
with ASCII lower-casing on every status tag dash-licenses emits. -/
def statusIsRestricted (e : DashSummaryEntry) : Except String Bool :=
  match e.status with
  | none => .error "TypeError: Cannot read properties of undefined (reading toLocaleLowerCase)"
  | some s => .ok (jsToLower s == "restricted")

/-- The `for await` loop of `getRestrictedDependenciesFromSummary`:
collect the entries whose status is restricted, in file order, aborting
at the first entry whose status access throws. -/
def collectRestricted : List DashSummaryEntry → Except String (List DashSummaryEntry)
  | [] => .ok []
  | e :: es =>
    match statusIsRestricted e with
    | .error msg => .error msg
    | .ok b =>
      match collectRestricted es with
      | .error msg => .error msg
      | .ok rest => .ok (if b then e :: rest else rest)

/-- Insert an entry into an already sorted list, before the first element
not strictly below it — the stable position. -/
def insertByDep (lt : String → String → Bool) (e : DashSummaryEntry) :
    List DashSummaryEntry → List DashSummaryEntry
  | [] => [e]
  | x :: xs =>
    if lt x.dependency e.dependency then x :: insertByDep lt e xs
    else e :: x :: xs

/-- `restricted.sort((a, b) => a.dependency.localeCompare(b.dependency))`.
`Array.prototype.sort` is a stable sort driven by a host comparator; the
comparator is the abstract parameter `lt` (`lt a b` models
`a.localeCompare(b) < 0`), and stable sorting by a consistent comparator
is extensionally insertion sort. -/
def sortByDep (lt : String → String → Bool) :
    List DashSummaryEntry → List DashSummaryEntry
  | [] => []
  | e :: es => insertByDep lt e (sortByDep lt es)

/-- `getRestrictedDependenciesFromSummary`: filter then sort. -/
def getRestrictedDependenciesFromSummary (lt : String → String → Bool)
    (entries : List DashSummaryEntry) : Except String (List DashSummaryEntry) :=
  match collectRestricted entries with
  | .error msg => .error msg
  | .ok restricted => .ok (sortByDep lt restricted)

/-! ## The baseline reconciler (`main`, lines 60–87) -/

/-- `Set.prototype.delete`, preserving the order of the rest. -/
def setDelete (s : List Json) (k : Json) : List Json :=
  s.filter fun x => !(x == k)

/-- `new Set(iterable)` keeps the first occurrence of each element, in
order: each element heads the result followed by the deduplication of the
rest with every later duplicate of it removed. -/
def jsSetOfList : List Json → List Json
  | [] => []
  | x :: xs => x :: setDelete (jsSetOfList xs) x

/-- The mutable state of the reconciliation loop: the two inputs (which
the loop never writes) plus the working `unmatched` set and the
`unhandled` accumulator that `Array.prototype.filter` builds. -/
structure ReconcileState where
  baseline : BaselineMap
  restricted : List DashSummaryEntry
  unmatched : List Json
  unhandled : List DashSummaryEntry
deriving Repr

/-- One iteration of the `restricted.filter` callback:
`unmatched.delete(entry.dependency); return !baseline.has(entry.dependency)`. -/
def reconcileStep (s : ReconcileState) (e : DashSummaryEntry) : ReconcileState :=
  { s with
    unmatched := setDelete s.unmatched (Json.str e.dependency)
    unhandled :=
      if mapHas s.baseline (Json.str e.dependency) then s.unhandled
      else s.unhandled ++ [e] }

/-- The whole reconciliation:
`const unmatched = new Set(baseline.keys());`
`const unhandled = restricted.filter(...)`. -/
def reconcileRun (m : BaselineMap) (restricted : List DashSummaryEntry) : ReconcileState :=
  restricted.foldl reconcileStep
    { baseline := m
      restricted := restricted
      unmatched := jsSetOfList (mapKeys m)
      unhandled := [] }

/-- The `if (unmatched.size > 0)` report block: a warning header, then for
each stale key a highlighted `> ${dependency}` line, plus
`${dependency}:` with the stored data when `if (data)` finds it truthy. -/
def unmatchedReport (m : BaselineMap) (unmatched : List Json) : List OutLine :=
  if unmatched.length > 0 then
    OutLine.warn "Some entries in the baseline did not match anything from dash-licenses output:" ::
    unmatched.flatMap fun k =>
      OutLine.unmatchedKey k ::
      (match mapGet m k with
       | some data => if data.truthy then [OutLine.unmatchedData k data] else []
       | none => [])
  else []

/-- The body of the `if (fs.existsSync(dashLicensesBaseline))` branch
after its `info` line, continuing into `info('Done.'); process.exit(0)`
when nothing is unhandled. -/
def checkAgainstBaseline (m : BaselineMap) (restricted : List DashSummaryEntry) :
    ExitCode × List OutLine :=
  let s := reconcileRun m restricted
  let report := unmatchedReport m s.unmatched
  if s.unhandled.length > 0 then
    (.one, report ++
      OutLine.error "Found results that aren't part of the baseline!" ::
      logRestrictedDashSummaryEntries s.unhandled)
  else
    (.zero, report ++ [OutLine.info "Done."])

/-- Relative form of the `path.resolve`d baseline path constant. -/
def dashLicensesBaseline : String := "license-check-baseline.json"

/-- The tail of `main` from line 59 on, as a function of the baseline
file (absent / present-but-unparsable / parsed) and the classified
restricted list. An unparsable file models `JSON.parse` throwing, which
reaches `main().catch`. -/
def mainAfterScan (baselineFile : Option (Except String Json))
    (restricted : List DashSummaryEntry) : ExitCode × List OutLine :=
  if restricted.length > 0 then
    match baselineFile with
    | some (.ok j) =>
      match readBaseline j with
      | some m =>
        let r := checkAgainstBaseline m restricted
        (r.1, OutLine.info "Checking results against the baseline..." :: r.2)
      | none =>
        (.one, [OutLine.info "Checking results against the baseline...",
                OutLine.error ("Invalid format for \"" ++ dashLicensesBaseline ++ "\"")])
    | some (.error e) =>
      (.one, [OutLine.info "Checking results against the baseline...",
              OutLine.error e])
    | none =>
      (.one, OutLine.error "Found unhandled restricted dependencies!" ::
             logRestrictedDashSummaryEntries restricted)
  else (.zero, [OutLine.info "Done."])

/-- `main` from the summary read on: parse the summary lines, classify,
reconcile. A thrown `TypeError` from the classifier reaches
`main().catch`, which prints it and exits 1. -/
def runCheck (lt : String → String → Bool) (summaryLines : List String)
    (baselineFile : Option (Except String Json)) : ExitCode × List OutLine :=
  match getRestrictedDependenciesFromSummary lt (readSummaryLines summaryLines) with
  | .error msg => (.one, [OutLine.error msg])
  | .ok restricted => mainAfterScan baselineFile restricted

/-! ## Subprocess invocation (`spawn`, `getErrorFromStatus`, `prettyCommand`) -/

/-- Hexadecimal digit, lowercase (as `JSON.stringify` renders `\u` escapes). -/
def hexDigit (n : Nat) : Char :=
  if n < 10 then Char.ofNat (48 + n) else Char.ofNat (87 + n)

/-- `JSON.stringify` escaping of one character of a string. -/
def jsEscapeChar (c : Char) : String :=
  if c = '"' then "\\\""
  else if c = '\\' then "\\\\"
  else if c = '\x08' then "\\b"
  else if c = '\x0c' then "\\f"
  else if c = '\n' then "\\n"
  else if c = '\r' then "\\r"
  else if c = '\t' then "\\t"
  else if c.toNat < 32 then
    "\\u00" ++ String.singleton (hexDigit (c.toNat / 16)) ++ String.singleton (hexDigit (c.toNat % 16))
  else String.singleton c

/-- `JSON.stringify` of a string value. -/
def jsonQuote (s : String) : String :=
  "\"" ++ String.join (s.toList.map jsEscapeChar) ++ "\""

/-- `JSON.stringify(array-of-strings, undefined, indent)` with the fixed
indent 2 that `prettyCommand` uses. -/
def jsonStringifyStrArr : List String → String
  | [] => "[]"
  | l => "[\n" ++ String.intercalate ",\n" (l.map fun s => "  " ++ jsonQuote s) ++ "\n]"

/-- The signal/exit-code outcome of a subprocess that did start: `signal`
is the terminating signal name or `null`; `status` is the numeric exit
code or `null` (when signalled). -/
structure SpawnOutcome where
  signal : Option String
  status : Option Int
deriving Repr, DecidableEq

/-- The `cp.spawnSync` return value after `spawn` decorated it with the
`bin` and `args` fields. -/
structure SpawnStatus where
  bin : String
  args : List String
  signal : Option String
  status : Option Int
deriving Repr, DecidableEq

/-- `prettyCommand`: `JSON.stringify([status.bin, ...status.args], undefined, 2)`. -/
def prettyCommand (st : SpawnStatus) : String :=
  jsonStringifyStrArr (st.bin :: st.args)

/-- `${status.status}` when `status.status` is a number or `null`. -/
def jsShowStatus : Option Int → String
  | none => "null"
  | some n => toString n

/-- `getErrorFromStatus`: a signal termination or any exit status other
than the number 0 yields an error message; a clean exit yields
`undefined`. -/
def getErrorFromStatus (st : SpawnStatus) : Option String :=
  if st.signal.isSome then
    some ("Command " ++ prettyCommand st ++ " exited with signal: " ++ (st.signal.getD ""))
  else if st.status ≠ some 0 then
    some ("Command " ++ prettyCommand st ++ " exited with code: " ++ jsShowStatus st.status)
  else none

/-- The `spawn` wrapper. A spawn error (`status.error` set: the binary
could not be started at all, supplied here as `Except.error`) prints the
error and exits 1 before the caller ever sees a status; otherwise the
caller receives the status decorated with `bin` and `args`. -/
def spawn (bin : String) (args : List String) (res : Except String SpawnOutcome) :
    Except (ExitCode × List OutLine) SpawnStatus :=
  match res with
  | .error e => .error (.one, [OutLine.error e])
  | .ok o => .ok { bin := bin, args := args, signal := o.signal, status := o.status }

/-! ## The whole `main` -/

/-- Relative form of the `path.resolve`d jar path constant. -/
def dashLicensesJar : String := "scripts/download/dash-licenses.jar"

/-- Relative form of the `path.resolve`d summary path constant. -/
def dashLicensesSummary : String := "license-check-summary.txt"

/-- The fixed download URL constant. -/
def dashLicensesUrl : String :=
  "https://repo.eclipse.org/service/local/artifact/maven/redirect?r=dash-licenses&g=org.eclipse.dash&a=org.eclipse.dash.licenses&v=LATEST"

/-- The externally determined facts one run of the script observes: which
files exist, how each subprocess call turns out, what the summary file
holds and what the baseline file holds. -/
structure World where
  jarExists : Bool
  curlResult : Except String SpawnOutcome
  summaryExists : Bool
  dashResult : Except String SpawnOutcome
  summaryLines : List String
  baselineFile : Option (Except String Json)

/-- The fixed curl argument vector at the fetch call site. -/
def curlArgs : List String :=
  ["-L", dashLicensesUrl, "-o", dashLicensesJar]

/-- The fixed java argument vector at the scanner call site. -/
def dashArgs : List String :=
  ["-jar", dashLicensesJar, "yarn.lock", "-batch", "50", "-timeout", "240",
   "-summary", dashLicensesSummary]

/-- The status `spawn` hands back for a given call site and outcome. -/
def statusOf (bin : String) (args : List String) (o : SpawnOutcome) : SpawnStatus :=
  { bin := bin, args := args, signal := o.signal, status := o.status }

/-- Lines 35–45 of `main`: fetch the jar if missing; a curl spawn error
or reported failure aborts with exit 1. -/
def fetchStep (w : World) : Except (ExitCode × List OutLine) (List OutLine) :=
  if w.jarExists then .ok []
  else
    match spawn "curl" curlArgs w.curlResult with
    | .error r => .error (r.1, OutLine.info "Fetching dash-licenses..." :: r.2)
    | .ok st =>
      match getErrorFromStatus st with
      | some msg => .error (.one, [OutLine.info "Fetching dash-licenses...", OutLine.error msg])
      | none => .ok [OutLine.info "Fetching dash-licenses..."]

/-- The `info` line of the summary-backup step, when a previous summary
exists. -/
def backupOut (w : World) : List OutLine :=
  if w.summaryExists then [OutLine.info "Backing up previous summary..."] else []

/-- The whole of `main` over an observed `World`: fetch, back up the old
summary, run the scanner (non-zero exit or signal only warns; a spawn
error aborts), then parse, classify and reconcile. -/
def runMain (lt : String → String → Bool) (w : World) : ExitCode × List OutLine :=
  match fetchStep w with
  | .error r => r
  | .ok out1 =>
    let out2 := backupOut w
    match spawn "java" dashArgs w.dashResult with
    | .error r => (r.1, out1 ++ out2 ++ OutLine.info "Running dash-licenses..." :: r.2)
    | .ok st =>
      let out3 :=
        match getErrorFromStatus st with
        | some msg => [OutLine.warn msg]
        | none => []
      let r := runCheck lt w.summaryLines w.baselineFile
      (r.1, out1 ++ out2 ++ OutLine.info "Running dash-licenses..." :: (out3 ++ r.2))

/-! ## Spec-side predicates and sample instantiations -/

/-- The classifier's retention test as a total predicate over entries: a
defined status that lower-cases to `restricted`. -/
def isRestrictedStatus (e : DashSummaryEntry) : Bool :=
  match e.status with
  | none => false
  | some s => jsToLower s == "restricted"

/-- The `X ${dependency}, ${license}` line of one entry. -/
def restrictedLine (e : DashSummaryEntry) : OutLine :=
  .restrictedEntry ("X " ++ e.dependency ++ ", " ++ jsShowOpt e.license)

/-- A concrete consistent comparator standing in for `localeCompare` in
witnesses: codepoint order on strings. -/
def ltString (a b : String) : Bool := decide (a < b)

/-! ## Properties of the sample comparator -/

theorem ltString_asym (a b : String) : ltString a b = true → ltString b a = false := by
  intro h
  simp only [ltString, decide_eq_true_eq] at h
  simpa [ltString] using le_of_lt h

theorem ltString_negtrans (a b c : String) :
    ltString a b = false → ltString b c = false → ltString a c = false := by
  intro hab hbc
  simp only [ltString, decide_eq_false_iff_not, not_lt] at hab hbc ⊢
  exact hbc.trans hab

/-! ## The reconciliation loop, characterised -/

theorem reconcileStep_baseline (s : ReconcileState) (e : DashSummaryEntry) :
    (reconcileStep s e).baseline = s.baseline := rfl

theorem reconcileFold_baseline (l : List DashSummaryEntry) (s : ReconcileState) :
    (l.foldl reconcileStep s).baseline = s.baseline := by
  induction l generalizing s with
  | nil => rfl
  | cons e es ih => exact (ih (reconcileStep s e)).trans rfl

theorem reconcileFold_restricted (l : List DashSummaryEntry) (s : ReconcileState) :
    (l.foldl reconcileStep s).restricted = s.restricted := by
  induction l generalizing s with
  | nil => rfl
  | cons e es ih => exact (ih (reconcileStep s e)).trans rfl

theorem reconcileFold_unhandled (l : List DashSummaryEntry) (s : ReconcileState) :
    (l.foldl reconcileStep s).unhandled =
      s.unhandled ++ l.filter (fun e => !(mapHas s.baseline (Json.str e.dependency))) := by
  induction l generalizing s with
  | nil => simp
  | cons e es ih =>
    rw [List.foldl_cons, ih (reconcileStep s e)]
    by_cases h : mapHas s.baseline (Json.str e.dependency)
    · simp [reconcileStep, h, List.filter_cons]
    · simp [reconcileStep, h, List.filter_cons]

theorem reconcileFold_unmatched (l : List DashSummaryEntry) (s : ReconcileState) :
    (l.foldl reconcileStep s).unmatched =
      s.unmatched.filter (fun k => l.all (fun e => !(k == Json.str e.dependency))) := by
  induction l generalizing s with
  | nil => simp
  | cons e es ih =>
    rw [List.foldl_cons, ih (reconcileStep s e)]
    show (setDelete s.unmatched (Json.str e.dependency)).filter _ = _
    rw [setDelete, List.filter_filter]
    apply List.filter_congr
    intro k _
    simp [List.all_cons, Bool.and_comm]

theorem reconcileRun_baseline (m : BaselineMap) (r : List DashSummaryEntry) :
    (reconcileRun m r).baseline = m :=
  reconcileFold_baseline r _

theorem reconcileRun_restricted (m : BaselineMap) (r : List DashSummaryEntry) :
    (reconcileRun m r).restricted = r :=
  reconcileFold_restricted r _

theorem reconcileRun_unhandled (m : BaselineMap) (r : List DashSummaryEntry) :
    (reconcileRun m r).unhandled =
      r.filter (fun e => !(mapHas m (Json.str e.dependency))) := by
  rw [reconcileRun, reconcileFold_unhandled]
  rfl

theorem reconcileRun_unmatched (m : BaselineMap) (r : List DashSummaryEntry) :
    (reconcileRun m r).unmatched =
      (jsSetOfList (mapKeys m)).filter (fun k => r.all (fun e => !(k == Json.str e.dependency))) := by
  rw [reconcileRun, reconcileFold_unmatched]

theorem jsSetOfList_eq_self (l : List Json) (h : l.Nodup) : jsSetOfList l = l := by
  induction l with
  | nil => rfl
  | cons x xs ih =>
    rw [List.nodup_cons] at h
    rw [jsSetOfList, ih h.2, setDelete]
    congr 1
    apply List.filter_eq_self.mpr
    intro y hy
    simp only [Bool.not_eq_eq_eq_not, Bool.not_true, beq_eq_false_iff_ne, ne_eq]
    exact fun hyx => h.1 (hyx ▸ hy)

theorem logRestricted_eq_map (l : List DashSummaryEntry) :
    logRestrictedDashSummaryEntries l = l.map restrictedLine := rfl

/-! ## The claims -/

/-- C1: for every baseline map (unique keys, as any `Map` has) and every
restricted list, the reconciler computes `unhandled` as exactly the
restricted entries whose dependency is not a key of the baseline, in
order, and `unmatched` as exactly the baseline keys that equal no
restricted entry's dependency, in order; the run exits 1 iff `unhandled`
is non-empty, and every unhandled entry is printed as
`X {dependency}, {license}`. -/
theorem claim_C1 (m : BaselineMap) (restricted : List DashSummaryEntry)
    (hkeys : (mapKeys m).Nodup) :
    (reconcileRun m restricted).unhandled
        = restricted.filter (fun e => !(mapHas m (Json.str e.dependency))) ∧
    (reconcileRun m restricted).unmatched
        = (mapKeys m).filter (fun k => restricted.all (fun e => !(k == Json.str e.dependency))) ∧
    ((checkAgainstBaseline m restricted).1 = ExitCode.one ↔
        (reconcileRun m restricted).unhandled ≠ []) ∧
    ∀ e ∈ (reconcileRun m restricted).unhandled,
      restrictedLine e ∈ (checkAgainstBaseline m restricted).2 := by
  refine ⟨reconcileRun_unhandled m restricted, ?_, ?_, ?_⟩
  · rw [reconcileRun_unmatched, jsSetOfList_eq_self _ hkeys]
  · rw [checkAgainstBaseline]
    by_cases h : (reconcileRun m restricted).unhandled.length > 0
    · simp only [h, if_pos]
      simp [← List.length_pos_iff_ne_nil, h]
    · simp only [h, if_neg]
      simp only [gt_iff_lt, not_lt, Nat.le_zero] at h
      simp [List.eq_nil_of_length_eq_zero h]
  · intro e he
    rw [checkAgainstBaseline]
    have h : (reconcileRun m restricted).unhandled.length > 0 :=
      List.length_pos.mpr (List.ne_nil_of_mem he)
    simp only [h, if_pos]
    simp only [List.mem_append, List.mem_cons, logRestricted_eq_map]
    exact Or.inr (Or.inr (List.mem_map_of_mem restrictedLine he))

/-- Witness for C1: baseline key `A`, one restricted entry `B` not in the
baseline. -/
theorem claim_C1_witness :
    (mapKeys [(Json.str "A", Json.null)]).Nodup ∧
    ((reconcileRun [(Json.str "A", Json.null)]
        [⟨"B", some "lic", some "restricted", some "src"⟩]).unhandled
      = [⟨"B", some "lic", some "restricted", some "src"⟩].filter
          (fun e => !(mapHas [(Json.str "A", Json.null)] (Json.str e.dependency))) ∧
    (reconcileRun [(Json.str "A", Json.null)]
        [⟨"B", some "lic", some "restricted", some "src"⟩]).unmatched
      = (mapKeys [(Json.str "A", Json.null)]).filter
          (fun k => [(⟨"B", some "lic", some "restricted", some "src"⟩ : DashSummaryEntry)].all
            (fun e => !(k == Json.str e.dependency))) ∧
    ((checkAgainstBaseline [(Json.str "A", Json.null)]
        [⟨"B", some "lic", some "restricted", some "src"⟩]).1 = ExitCode.one ↔
      (reconcileRun [(Json.str "A", Json.null)]
        [⟨"B", some "lic", some "restricted", some "src"⟩]).unhandled ≠ []) ∧
    ∀ e ∈ (reconcileRun [(Json.str "A", Json.null)]
        [⟨"B", some "lic", some "restricted", some "src"⟩]).unhandled,
      restrictedLine e ∈ (checkAgainstBaseline [(Json.str "A", Json.null)]
        [⟨"B", some "lic", some "restricted", some "src"⟩]).2) :=
  ⟨by decide, claim_C1 _ _ (by decide)⟩

/-- C8: the reconciliation is a pure function of its two inputs: the loop
leaves the baseline and the restricted list exactly as they were, and
running it again over the (unchanged) inputs yields the identical state —
in particular identical `unmatched` and `unhandled`. -/
theorem claim_C8 (m : BaselineMap) (r : List DashSummaryEntry) :
    (reconcileRun m r).baseline = m ∧
    (reconcileRun m r).restricted = r ∧
    reconcileRun (reconcileRun m r).baseline (reconcileRun m r).restricted
      = reconcileRun m r ∧
    (reconcileRun (reconcileRun m r).baseline (reconcileRun m r).restricted).unmatched
      = (reconcileRun m r).unmatched ∧
    (reconcileRun (reconcileRun m r).baseline (reconcileRun m r).restricted).unhandled
      = (reconcileRun m r).unhandled := by
  simp [reconcileRun_baseline, reconcileRun_restricted]

/-! ## The classifier, characterised -/

theorem collectRestricted_ok (l : List DashSummaryEntry)
    (h : ∀ e ∈ l, e.status.isSome) :
    collectRestricted l = .ok (l.filter isRestrictedStatus) := by
  induction l with
  | nil => rfl
  | cons e es ih =>
    obtain ⟨s, hs⟩ := Option.isSome_iff_exists.mp (h e (by simp))
    have hrest := ih (fun x hx => h x (by simp [hx]))
    rw [collectRestricted]
    simp only [statusIsRestricted, hs, hrest]
    by_cases hb : (s.toLower == "restricted") = true
    · simp [List.filter_cons, isRestrictedStatus, hs, hb]
    · simp only [Bool.not_eq_true] at hb
      simp [List.filter_cons, isRestrictedStatus, hs, hb]

theorem collectRestricted_error (l : List DashSummaryEntry)
    (h : ∃ e ∈ l, e.status = none) :
    collectRestricted l
      = .error "TypeError: Cannot read properties of undefined (reading toLocaleLowerCase)" := by
  induction l with
  | nil => simp at h
  | cons e es ih =>
    obtain ⟨x, hx, hxn⟩ := h
    rcases List.mem_cons.mp hx with rfl | hxs
    · rw [collectRestricted]
      simp [statusIsRestricted, hxn]
    · cases he : e.status with
      | none =>
        rw [collectRestricted]
        simp [statusIsRestricted, he]
      | some s =>
        rw [collectRestricted]
        simp only [statusIsRestricted, he]
        rw [ih ⟨x, hxs, hxn⟩]

theorem insertByDep_perm (lt : String → String → Bool) (e : DashSummaryEntry)
    (l : List DashSummaryEntry) : (insertByDep lt e l).Perm (e :: l) := by
  induction l with
  | nil => exact List.Perm.refl _
  | cons x xs ih =>
    rw [insertByDep]
    by_cases h : lt x.dependency e.dependency
    · simp only [h, if_pos]
      exact (ih.cons x).trans (List.Perm.swap e x xs)
    · simp only [h, if_neg]
      exact List.Perm.refl _

theorem sortByDep_perm (lt : String → String → Bool) (l : List DashSummaryEntry) :
    (sortByDep lt l).Perm l := by
  induction l with
  | nil => exact List.Perm.refl _
  | cons e es ih => exact (insertByDep_perm lt e _).trans (ih.cons e)

theorem insertByDep_sorted (lt : String → String → Bool)
    (hasym : ∀ a b, lt a b = true → lt b a = false)
    (hntr : ∀ a b c, lt a b = false → lt b c = false → lt a c = false)
    (e : DashSummaryEntry) (l : List DashSummaryEntry)
    (hl : l.Pairwise (fun a b => lt b.dependency a.dependency = false)) :
    (insertByDep lt e l).Pairwise (fun a b => lt b.dependency a.dependency = false) := by
  induction l with
  | nil => simp [insertByDep]
  | cons x xs ih =>
    rw [List.pairwise_cons] at hl
    rw [insertByDep]
    by_cases h : lt x.dependency e.dependency
    · simp only [h, if_pos]
      rw [List.pairwise_cons]
      refine ⟨?_, ih hl.2⟩
      intro y hy
      rcases List.mem_cons.mp ((insertByDep_perm lt e xs).mem_iff.mp hy) with rfl | hyxs
      · exact hasym _ _ h
      · exact hl.1 y hyxs
    · rw [if_neg h]
      have hfalse : lt x.dependency e.dependency = false := by
        simpa using h
      rw [List.pairwise_cons]
      refine ⟨?_, List.Pairwise.cons hl.1 hl.2⟩
      intro y hy
      rcases List.mem_cons.mp hy with rfl | hyxs
      · exact hfalse
      · exact hntr _ _ _ (hl.1 y hyxs) hfalse

theorem sortByDep_sorted (lt : String → String → Bool)
    (hasym : ∀ a b, lt a b = true → lt b a = false)
    (hntr : ∀ a b c, lt a b = false → lt b c = false → lt a c = false)
    (l : List DashSummaryEntry) :
    (sortByDep lt l).Pairwise (fun a b => lt b.dependency a.dependency = false) := by
  induction l with
  | nil => simp [sortByDep]
  | cons e es ih => exact insertByDep_sorted lt hasym hntr e _ ih

/-- C2: over any parsed entry sequence whose statuses are all defined and
any consistent comparator (`lt a b` models `a.localeCompare(b) < 0`), the
classifier returns exactly the entries whose lower-cased status is the
literal `restricted`, sorted ascending by dependency under the
comparator. -/
theorem claim_C2 (lt : String → String → Bool) (entries : List DashSummaryEntry)
    (hstatus : ∀ e ∈ entries, e.status.isSome)
    (hasym : ∀ a b, lt a b = true → lt b a = false)
    (hntr : ∀ a b c, lt a b = false → lt b c = false → lt a c = false) :
    ∃ res, getRestrictedDependenciesFromSummary lt entries = .ok res ∧
      res.Perm (entries.filter isRestrictedStatus) ∧
      res.Pairwise (fun a b => lt b.dependency a.dependency = false) := by
  refine ⟨sortByDep lt (entries.filter isRestrictedStatus), ?_, ?_, ?_⟩
  · rw [getRestrictedDependenciesFromSummary, collectRestricted_ok entries hstatus]
  · exact sortByDep_perm lt _
  · exact sortByDep_sorted lt hasym hntr _

/-- Witness for C2: the spec's example rows — statuses `restricted`,
`Restricted`, `approved`; dependencies `B`, `A`, `C` in file order. -/
theorem claim_C2_witness :
    (∀ e ∈ [(⟨"B", some "lic", some "restricted", some "src"⟩ : DashSummaryEntry),
            ⟨"A", some "lic", some "Restricted", some "src"⟩,
            ⟨"C", some "lic", some "approved", some "src"⟩], e.status.isSome) ∧
    (∀ a b, ltString a b = true → ltString b a = false) ∧
    (∀ a b c, ltString a b = false → ltString b c = false → ltString a c = false) ∧
    ∃ res, getRestrictedDependenciesFromSummary ltString
        [⟨"B", some "lic", some "restricted", some "src"⟩,
         ⟨"A", some "lic", some "Restricted", some "src"⟩,
         ⟨"C", some "lic", some "approved", some "src"⟩] = .ok res ∧
      res.Perm ([(⟨"B", some "lic", some "restricted", some "src"⟩ : DashSummaryEntry),
                 ⟨"A", some "lic", some "Restricted", some "src"⟩,
                 ⟨"C", some "lic", some "approved", some "src"⟩].filter isRestrictedStatus) ∧
      res.Pairwise (fun a b => ltString b.dependency a.dependency = false) :=
  ⟨by decide, ltString_asym, ltString_negtrans,
   claim_C2 ltString _ (by decide) ltString_asym ltString_negtrans⟩

/-! ## Summary parsing and end-to-end exit behaviour -/

theorem readSummaryLines_status_isSome (lines : List String)
    (hfields : ∀ l ∈ lines, 3 ≤ (jsSplitCommaSpace l).length) :
    ∀ e ∈ readSummaryLines lines, e.status.isSome := by
  intro e he
  obtain ⟨l, hl, rfl⟩ := List.mem_map.mp he
  have h3 := hfields l hl
  simp only [parseLine]
  rw [Option.isSome_iff_exists]
  have : 2 < (jsSplitCommaSpace l).length := h3
  exact ⟨_, List.getElem?_eq_getElem this⟩

/-- C3 as stated is false: the summary consisting of the single malformed
line `foo` contains zero restricted rows, yet the program exits 1 — the
classifier throws a `TypeError` on the undefined status field. -/
theorem claim_C3_counterexample :
    (∀ e ∈ readSummaryLines ["foo"], isRestrictedStatus e = false) ∧
    (runCheck ltString ["foo"] none).1 = ExitCode.one := by
  exact ⟨by decide, by decide⟩

/-- C3 amended: for every summary whose lines each carry at least three
comma-space-separated fields (so every status is defined) and classify to
zero restricted rows, the program exits 0 with only the `Done.` line,
regardless of the baseline file's presence or content — malformed
included. -/
theorem claim_C3 (lt : String → String → Bool) (lines : List String)
    (bf : Option (Except String Json))
    (hfields : ∀ l ∈ lines, 3 ≤ (jsSplitCommaSpace l).length)
    (hnone : ∀ l ∈ lines, isRestrictedStatus (parseLine l) = false) :
    runCheck lt lines bf = (ExitCode.zero, [OutLine.info "Done."]) := by
  have hstatus := readSummaryLines_status_isSome lines hfields
  have hfilter : (readSummaryLines lines).filter isRestrictedStatus = [] := by
    rw [List.filter_eq_nil_iff]
    intro e he
    obtain ⟨l, hl, rfl⟩ := List.mem_map.mp he
    simp [hnone l hl]
  rw [runCheck, getRestrictedDependenciesFromSummary,
    collectRestricted_ok _ hstatus, hfilter]
  rfl

/-- Witness for C3 amended: one well-formed non-restricted row against a
baseline file whose content failed to parse. -/
theorem claim_C3_witness :
    (∀ l ∈ ["a, b, approved, src"], 3 ≤ (jsSplitCommaSpace l).length) ∧
    (∀ l ∈ ["a, b, approved, src"], isRestrictedStatus (parseLine l) = false) ∧
    runCheck ltString ["a, b, approved, src"]
        (some (.error "SyntaxError: Unexpected token"))
      = (ExitCode.zero, [OutLine.info "Done."]) :=
  ⟨by decide, by decide, claim_C3 ltString _ _ (by decide) (by decide)⟩

/-- C5 as stated is false: the two-field line `a, b` parses without any
error into an entry whose status and source are undefined, but the
downstream classifier does not tolerate the undefined status — it throws,
and the program exits 1. -/
theorem claim_C5_counterexample :
    readSummaryLines ["a, b"] = [⟨"a", some "b", none, none⟩] ∧
    runCheck ltString ["a, b"] none =
      (ExitCode.one,
       [OutLine.error "TypeError: Cannot read properties of undefined (reading toLocaleLowerCase)"]) := by
  exact ⟨by decide, by decide⟩

/-- C5 amended: the parser yields `undefined` for missing trailing fields
rather than raising (three fields leave `source` undefined, two leave
`status` undefined too); downstream tolerates an undefined `source` —
summaries whose lines all have at least three fields classify without
failing — but an entry with an undefined `status` makes the classifier
throw a `TypeError`, aborting the program with exit code 1. -/
theorem claim_C5 (lt : String → String → Bool) (bf : Option (Except String Json))
    (okLines badLines : List String) (line : String)
    (hok : ∀ l ∈ okLines, 3 ≤ (jsSplitCommaSpace l).length)
    (hbad : ∃ l ∈ badLines, (jsSplitCommaSpace l).length ≤ 2) :
    ((jsSplitCommaSpace line).length ≤ 3 → (parseLine line).source = none) ∧
    ((jsSplitCommaSpace line).length ≤ 2 → (parseLine line).status = none) ∧
    (∃ res, getRestrictedDependenciesFromSummary lt (readSummaryLines okLines) = .ok res) ∧
    (runCheck lt badLines bf).1 = ExitCode.one := by
  refine ⟨?_, ?_, ?_, ?_⟩
  · intro h
    simp only [parseLine]
    exact List.getElem?_eq_none h
  · intro h
    simp only [parseLine]
    exact List.getElem?_eq_none h
  · exact ⟨_, by
      rw [getRestrictedDependenciesFromSummary,
        collectRestricted_ok _ (readSummaryLines_status_isSome okLines hok)]⟩
  · obtain ⟨l, hl, h2⟩ := hbad
    have herr : ∃ e ∈ readSummaryLines badLines, e.status = none := by
      refine ⟨parseLine l, List.mem_map_of_mem parseLine hl, ?_⟩
      simp only [parseLine]
      exact List.getElem?_eq_none h2
    rw [runCheck, getRestrictedDependenciesFromSummary, collectRestricted_error _ herr]

/-- Witness for C5 amended: `a, b, c` is tolerated (undefined source),
`a, b` aborts the run. -/
theorem claim_C5_witness :
    (∀ l ∈ ["a, b, c"], 3 ≤ (jsSplitCommaSpace l).length) ∧
    (∃ l ∈ ["a, b"], (jsSplitCommaSpace l).length ≤ 2) ∧
    (((jsSplitCommaSpace "a, b").length ≤ 3 → (parseLine "a, b").source = none) ∧
     ((jsSplitCommaSpace "a, b").length ≤ 2 → (parseLine "a, b").status = none) ∧
     (∃ res, getRestrictedDependenciesFromSummary ltString (readSummaryLines ["a, b, c"]) = .ok res) ∧
     (runCheck ltString ["a, b"] none).1 = ExitCode.one) :=
  ⟨by decide, by decide, claim_C5 ltString none _ _ "a, b" (by decide) (by decide)⟩

/-- C6: when no baseline file exists and the restricted list is
non-empty, the program exits 1 after the error line, printing every
restricted entry in the `X {dependency}, {license}` format. -/
theorem claim_C6 (restricted : List DashSummaryEntry) (hr : restricted ≠ []) :
    mainAfterScan none restricted =
      (ExitCode.one,
       OutLine.error "Found unhandled restricted dependencies!" ::
         restricted.map restrictedLine) := by
  rw [mainAfterScan, if_pos (List.length_pos.mpr hr), logRestricted_eq_map]

/-- Witness for C6: one restricted entry, no baseline file. -/
theorem claim_C6_witness :
    ([(⟨"A", some "lic", some "restricted", some "src"⟩ : DashSummaryEntry)] ≠ []) ∧
    mainAfterScan none [⟨"A", some "lic", some "restricted", some "src"⟩]
      = (ExitCode.one,
         OutLine.error "Found unhandled restricted dependencies!" ::
           [(⟨"A", some "lic", some "restricted", some "src"⟩ : DashSummaryEntry)].map restrictedLine) :=
  ⟨by decide, claim_C6 _ (by decide)⟩

/-! ## The baseline loader, characterised -/

theorem mapSet_fresh (m : BaselineMap) (k v : Json) (h : ∀ p ∈ m, p.1 ≠ k) :
    mapSet m k v = m ++ [(k, v)] := by
  rw [mapSet, if_neg]
  simp only [List.any_eq_true, beq_iff_eq, not_exists, not_and]
  exact fun p hp => h p hp

theorem foldl_mapSet_fresh (l : List (Json × Json)) (acc : BaselineMap)
    (h : ((acc ++ l).map Prod.fst).Nodup) :
    l.foldl (fun m p => mapSet m p.1 p.2) acc = acc ++ l := by
  induction l generalizing acc with
  | nil => simp
  | cons p ps ih =>
    rw [List.foldl_cons]
    have hfresh : ∀ q ∈ acc, q.1 ≠ p.1 := by
      intro q hq hqp
      rw [List.map_append, List.nodup_append] at h
      exact h.2.2 (List.mem_map_of_mem Prod.fst hq) (by simp [hqp])
    rw [mapSet_fresh _ _ _ hfresh]
    have hassoc : acc ++ p :: ps = (acc ++ [p]) ++ ps := by simp
    rw [hassoc] at h
    have := ih (acc ++ [p]) h
    rw [this]
    simp

theorem mapOfList_eq_self (l : List (Json × Json)) (h : (l.map Prod.fst).Nodup) :
    mapOfList l = l := by
  have := foldl_mapSet_fresh l [] (by simpa using h)
  simpa [mapOfList] using this

theorem mapSet_keys (m : BaselineMap) (k v : Json) :
    mapKeys (mapSet m k v) = if mapHas m k then mapKeys m else mapKeys m ++ [k] := by
  rw [mapSet, mapHas]
  by_cases h : (m.any fun p => p.1 == k) = true
  · rw [if_pos h, if_pos h, mapKeys, mapKeys, List.map_map]
    apply List.map_congr_left
    intro p _
    by_cases hp : p.1 = k <;> simp [hp]
  · rw [if_neg h, if_neg h, mapKeys, mapKeys]
    simp

theorem mapHas_eq_keys_any (m : BaselineMap) (k : Json) :
    mapHas m k = (mapKeys m).any (fun x => x == k) := by
  induction m with
  | nil => rfl
  | cons p ps ih =>
    simp only [mapHas, mapKeys, List.any_cons, List.map_cons] at ih ⊢
    rw [ih]

theorem mapHas_mapSet (m : BaselineMap) (k v k' : Json) :
    mapHas (mapSet m k v) k' = (mapHas m k' || (k == k')) := by
  rw [mapHas_eq_keys_any, mapSet_keys]
  by_cases h : mapHas m k
  · rw [if_pos h, ← mapHas_eq_keys_any]
    by_cases hkk : (k == k') = true
    · have : k = k' := eq_of_beq hkk
      subst this
      simp [h]
    · simp only [Bool.not_eq_true] at hkk
      simp [hkk]
  · rw [if_neg h, List.any_append, ← mapHas_eq_keys_any]
    simp

theorem mapHas_mapOfList (l : List (Json × Json)) (k : Json) :
    mapHas (mapOfList l) k = l.any (fun p => p.1 == k) := by
  suffices h : ∀ acc, mapHas (l.foldl (fun m p => mapSet m p.1 p.2) acc) k
      = (mapHas acc k || l.any (fun p => p.1 == k)) by
    have := h []
    simpa [mapOfList, mapHas] using this
  induction l with
  | nil => simp
  | cons p ps ih =>
    intro acc
    rw [List.foldl_cons, ih (mapSet acc p.1 p.2), mapHas_mapSet]
    simp [Bool.or_assoc]

theorem mapSet_values_null (m : BaselineMap) (k v : Json)
    (hm : ∀ p ∈ m, p.2 = Json.null) (hv : v = Json.null) :
    ∀ p ∈ mapSet m k v, p.2 = Json.null := by
  intro p hp
  rw [mapSet] at hp
  by_cases h : (m.any fun q => q.1 == k) = true
  · rw [if_pos h] at hp
    obtain ⟨q, hq, hqe⟩ := List.mem_map.mp hp
    by_cases hq1 : (q.1 == k) = true
    · rw [if_pos hq1] at hqe
      rw [← hqe]
      exact hv
    · rw [if_neg hq1] at hqe
      rw [← hqe]
      exact hm q hq
  · rw [if_neg h] at hp
    rcases List.mem_append.mp hp with h1 | h2
    · exact hm p h1
    · simp only [List.mem_singleton] at h2
      rw [h2]
      exact hv

theorem mapOfList_values_null (l : List (Json × Json))
    (hl : ∀ p ∈ l, p.2 = Json.null) :
    ∀ p ∈ mapOfList l, p.2 = Json.null := by
  suffices h : ∀ (l' : List (Json × Json)) (acc : BaselineMap),
      (∀ p ∈ l', p.2 = Json.null) → (∀ p ∈ acc, p.2 = Json.null) →
      ∀ p ∈ l'.foldl (fun m q => mapSet m q.1 q.2) acc, p.2 = Json.null by
    intro p hp
    exact h l [] hl (by simp) p hp
  intro l'
  induction l' with
  | nil =>
    intro acc _ hacc p hp
    exact hacc p hp
  | cons q qs ih =>
    intro acc hl' hacc p hp
    rw [List.foldl_cons] at hp
    exact ih (mapSet acc q.1 q.2) (fun r hr => hl' r (by simp [hr]))
      (mapSet_values_null acc q.1 q.2 hacc (hl' q (by simp))) p hp

theorem mapGet_isSome (m : BaselineMap) (k : Json) :
    (mapGet m k).isSome = mapHas m k := by
  induction m with
  | nil => rfl
  | cons p ps ih =>
    simp only [mapGet, mapHas] at ih ⊢
    rw [List.find?_cons, List.any_cons]
    by_cases hp : (p.1 == k) = true
    · simp [hp]
    · simp only [Bool.not_eq_true] at hp
      simp [hp, ih]

theorem mapGet_eq_some_mem (m : BaselineMap) (k v : Json) (h : mapGet m k = some v) :
    ∃ k', (k', v) ∈ m := by
  rw [mapGet] at h
  obtain ⟨p, hp, hpv⟩ := Option.map_eq_some'.mp h
  exact ⟨p.1, by rw [← hpv] at *; exact List.mem_of_find?_eq_some hp⟩

theorem strArr_any (ss : List String) (s : String) :
    ((ss.map Json.str).map (fun e => (e, Json.null))).any (fun p => p.1 == Json.str s)
      = ss.any (fun t => t == s) := by
  induction ss with
  | nil => rfl
  | cons t ts ih =>
    simp only [List.map_cons, List.any_cons, ih]
    rfl

theorem readBaseline_arr_get (ss : List String) (s : String) :
    ∃ m, readBaseline (Json.arr (ss.map Json.str)) = some m ∧
      mapGet m (Json.str s) = if s ∈ ss then some Json.null else none := by
  refine ⟨_, rfl, ?_⟩
  have hvals : ∀ p ∈ (ss.map Json.str).map (fun e => (e, Json.null)), p.2 = Json.null := by
    intro p hp
    obtain ⟨e, _, rfl⟩ := List.mem_map.mp hp
    rfl
  have hnull := mapOfList_values_null _ hvals
  have hhas : mapHas (mapOfList ((ss.map Json.str).map (fun e => (e, Json.null))))
      (Json.str s) = (ss.any fun t => t == s) := by
    rw [mapHas_mapOfList, strArr_any]
  by_cases hmem : s ∈ ss
  · have hsome : (mapGet (mapOfList ((ss.map Json.str).map (fun e => (e, Json.null))))
        (Json.str s)).isSome = true := by
      rw [mapGet_isSome, hhas]
      exact List.any_eq_true.mpr ⟨s, hmem, by simp⟩
    obtain ⟨v, hv⟩ := Option.isSome_iff_exists.mp hsome
    obtain ⟨k', hk'⟩ := mapGet_eq_some_mem _ _ _ hv
    have hvnull : v = Json.null := hnull _ hk'
    rw [if_pos hmem, hv, hvnull]
  · have hnone : (mapGet (mapOfList ((ss.map Json.str).map (fun e => (e, Json.null))))
        (Json.str s)) = none := by
      rw [← Option.not_isSome_iff_eq_none, mapGet_isSome, hhas]
      simp only [List.any_eq_true, not_exists, not_and]
      intro t ht
      simp only [beq_eq_false_iff_ne, ne_eq, Bool.not_eq_true]
      exact fun hts => hmem (hts ▸ ht)
    rw [if_neg hmem, hnone]

theorem readBaseline_obj_eq (fields : List (String × Json))
    (h : (fields.map Prod.fst).Nodup) :
    readBaseline (Json.obj fields) = some (fields.map fun p => (Json.str p.1, p.2)) := by
  rw [readBaseline]
  congr 1
  apply mapOfList_eq_self
  rw [List.map_map]
  have : (Prod.fst ∘ fun p : String × Json => (Json.str p.1, p.2))
      = Json.str ∘ Prod.fst := rfl
  rw [this, ← List.map_map]
  exact h.map (fun a b hab => Json.str.inj hab)

theorem readBaseline_bad (j : Json)
    (hnotarr : ∀ es, j ≠ Json.arr es) (hnotobj : ∀ fs, j ≠ Json.obj fs) :
    readBaseline j = none := by
  cases j with
  | null => rfl
  | bool b => rfl
  | num n => rfl
  | str s => rfl
  | arr es => exact absurd rfl (hnotarr es)
  | obj fs => exact absurd rfl (hnotobj fs)

/-- C4: an array baseline of strings loads to the map sending each
element to `null`; a non-null-object baseline loads to the map of its
key/value entries (in order); any other JSON root is rejected — the
program prints the invalid-format error and exits 1. -/
theorem claim_C4 (ss : List String) (s : String) (fields : List (String × Json))
    (j : Json) (restricted : List DashSummaryEntry)
    (hfields : (fields.map Prod.fst).Nodup)
    (hnotarr : ∀ es, j ≠ Json.arr es) (hnotobj : ∀ fs, j ≠ Json.obj fs)
    (hr : restricted ≠ []) :
    (∃ m, readBaseline (Json.arr (ss.map Json.str)) = some m ∧
       mapGet m (Json.str s) = if s ∈ ss then some Json.null else none) ∧
    readBaseline (Json.obj fields) = some (fields.map fun p => (Json.str p.1, p.2)) ∧
    readBaseline j = none ∧
    mainAfterScan (some (.ok j)) restricted =
      (ExitCode.one,
       [OutLine.info "Checking results against the baseline...",
        OutLine.error ("Invalid format for \"" ++ dashLicensesBaseline ++ "\"")]) := by
  have hbad := readBaseline_bad j hnotarr hnotobj
  refine ⟨readBaseline_arr_get ss s, readBaseline_obj_eq fields hfields, hbad, ?_⟩
  rw [mainAfterScan, if_pos (List.length_pos.mpr hr)]
  simp only [hbad]

/-- Witness for C4: array `["A","B"]`, object with one annotated key, and
the numeric root `3`. -/
theorem claim_C4_witness :
    (([("A", Json.obj [("note", Json.num 1)])].map Prod.fst).Nodup) ∧
    (∀ es, Json.num 3 ≠ Json.arr es) ∧ (∀ fs, Json.num 3 ≠ Json.obj fs) ∧
    ([(⟨"A", some "lic", some "restricted", some "src"⟩ : DashSummaryEntry)] ≠ []) ∧
    ((∃ m, readBaseline (Json.arr (["A", "B"].map Json.str)) = some m ∧
       mapGet m (Json.str "A") = if "A" ∈ ["A", "B"] then some Json.null else none) ∧
     readBaseline (Json.obj [("A", Json.obj [("note", Json.num 1)])])
       = some ([("A", Json.obj [("note", Json.num 1)])].map fun p => (Json.str p.1, p.2)) ∧
     readBaseline (Json.num 3) = none ∧
     mainAfterScan (some (.ok (Json.num 3))) [⟨"A", some "lic", some "restricted", some "src"⟩]
       = (ExitCode.one,
          [OutLine.info "Checking results against the baseline...",
           OutLine.error ("Invalid format for \"" ++ dashLicensesBaseline ++ "\"")])) :=
  ⟨by decide, fun es h => Json.noConfusion h, fun fs h => Json.noConfusion h, by decide,
   claim_C4 ["A", "B"] "A" [("A", Json.obj [("note", Json.num 1)])] (Json.num 3)
     [⟨"A", some "lic", some "restricted", some "src"⟩]
     (by decide) (fun es h => Json.noConfusion h) (fun fs h => Json.noConfusion h) (by decide)⟩

/-! ## The unmatched-entry report -/

theorem mem_unmatchedReport_warn (m : BaselineMap) (unmatched : List Json)
    (h : unmatched ≠ []) :
    OutLine.warn "Some entries in the baseline did not match anything from dash-licenses output:"
      ∈ unmatchedReport m unmatched := by
  rw [unmatchedReport, if_pos (List.length_pos.mpr h)]
  exact List.mem_cons_self _ _

theorem mem_unmatchedReport_key (m : BaselineMap) (unmatched : List Json)
    (k : Json) (hk : k ∈ unmatched) :
    OutLine.unmatchedKey k ∈ unmatchedReport m unmatched := by
  rw [unmatchedReport, if_pos (List.length_pos.mpr (List.ne_nil_of_mem hk))]
  exact List.mem_cons.mpr (Or.inr (List.mem_flatMap.mpr ⟨k, hk, by simp⟩))

theorem mem_unmatchedReport_data_iff (m : BaselineMap) (unmatched : List Json)
    (k d : Json) (hk : k ∈ unmatched) (hd : mapGet m k = some d) :
    (OutLine.unmatchedData k d ∈ unmatchedReport m unmatched ↔ d.truthy = true) := by
  rw [unmatchedReport, if_pos (List.length_pos.mpr (List.ne_nil_of_mem hk))]
  constructor
  · intro h
    rcases List.mem_cons.mp h with habs | h
    · exact absurd habs (by simp)
    · obtain ⟨k', hk', hmem⟩ := List.mem_flatMap.mp h
      rcases List.mem_cons.mp hmem with habs | h2
      · exact absurd habs (by simp)
      · cases hget : mapGet m k' with
        | none =>
          rw [hget] at h2
          simp at h2
        | some d' =>
          rw [hget] at h2
          have h2' : OutLine.unmatchedData k d
              ∈ (if d'.truthy = true then [OutLine.unmatchedData k' d'] else []) := h2
          by_cases ht : d'.truthy = true
          · rw [if_pos ht] at h2'
            simp only [List.mem_singleton, OutLine.unmatchedData.injEq] at h2'
            obtain ⟨rfl, rfl⟩ := h2'
            exact ht
          · rw [if_neg ht] at h2'
            simp at h2'
  · intro ht
    refine List.mem_cons.mpr (Or.inr (List.mem_flatMap.mpr ⟨k, hk, ?_⟩))
    refine List.mem_cons.mpr (Or.inr ?_)
    rw [hd]
    show OutLine.unmatchedData k d ∈ (if d.truthy = true then [OutLine.unmatchedData k d] else [])
    rw [if_pos ht]
    simp

theorem checkAgainstBaseline_snd (m : BaselineMap) (r : List DashSummaryEntry) :
    ∃ tail, (checkAgainstBaseline m r).2
        = unmatchedReport m (reconcileRun m r).unmatched ++ tail ∧
      (∀ k d, OutLine.unmatchedData k d ∉ tail) ∧
      (∀ k, OutLine.unmatchedKey k ∉ tail) := by
  rw [checkAgainstBaseline]
  by_cases h : (reconcileRun m r).unhandled.length > 0
  · rw [if_pos h]
    refine ⟨_, rfl, ?_, ?_⟩
    · intro k d hmem
      rcases List.mem_cons.mp hmem with habs | h2
      · exact absurd habs (by simp)
      · rw [logRestricted_eq_map] at h2
        obtain ⟨e, _, habs⟩ := List.mem_map.mp h2
        exact absurd habs (by simp [restrictedLine])
    · intro k hmem
      rcases List.mem_cons.mp hmem with habs | h2
      · exact absurd habs (by simp)
      · rw [logRestricted_eq_map] at h2
        obtain ⟨e, _, habs⟩ := List.mem_map.mp h2
        exact absurd habs (by simp [restrictedLine])
  · rw [if_neg h]
    refine ⟨_, rfl, ?_, ?_⟩
    · intro k d hmem
      simp at hmem
    · intro k hmem
      simp at hmem

/-- C9 as stated is false: the baseline entry `Z` carries the annotation
`false`, which is not `null`, `Z` is unmatched and its key line is
printed — but the `if (data)` truthiness test suppresses the annotation
line. -/
theorem claim_C9_counterexample :
    mapGet [(Json.str "A", Json.null), (Json.str "Z", Json.bool false)] (Json.str "Z")
      = some (Json.bool false) ∧
    Json.bool false ≠ Json.null ∧
    Json.str "Z" ∈ (reconcileRun [(Json.str "A", Json.null), (Json.str "Z", Json.bool false)]
        [⟨"A", some "lic", some "restricted", some "src"⟩]).unmatched ∧
    OutLine.unmatchedKey (Json.str "Z")
      ∈ (checkAgainstBaseline [(Json.str "A", Json.null), (Json.str "Z", Json.bool false)]
          [⟨"A", some "lic", some "restricted", some "src"⟩]).2 ∧
    ∀ d : Json, OutLine.unmatchedData (Json.str "Z") d
      ∉ (checkAgainstBaseline [(Json.str "A", Json.null), (Json.str "Z", Json.bool false)]
          [⟨"A", some "lic", some "restricted", some "src"⟩]).2 := by
  refine ⟨by decide, by decide, by decide, by decide, ?_⟩
  intro d
  have hout : checkAgainstBaseline [(Json.str "A", Json.null), (Json.str "Z", Json.bool false)]
      [⟨"A", some "lic", some "restricted", some "src"⟩]
      = (ExitCode.zero,
         [OutLine.warn "Some entries in the baseline did not match anything from dash-licenses output:",
          OutLine.unmatchedKey (Json.str "Z"), OutLine.info "Done."]) := by decide
  rw [hout]
  intro hmem
  simp at hmem

/-- C9 amended: when the unmatched set is non-empty its warning header and
every unmatched key are printed, the stored annotation of an unmatched key
is additionally printed exactly when it is truthy (not `null`, `false`,
`0` or the empty string — not merely non-null), and unmatched entries
never fail the run: with nothing unhandled the exit code is 0. -/
theorem claim_C9 (m : BaselineMap) (r : List DashSummaryEntry) :
    ((reconcileRun m r).unmatched ≠ [] →
      OutLine.warn "Some entries in the baseline did not match anything from dash-licenses output:"
        ∈ (checkAgainstBaseline m r).2) ∧
    (∀ k ∈ (reconcileRun m r).unmatched,
      OutLine.unmatchedKey k ∈ (checkAgainstBaseline m r).2) ∧
    (∀ k ∈ (reconcileRun m r).unmatched, ∀ d, mapGet m k = some d →
      (OutLine.unmatchedData k d ∈ (checkAgainstBaseline m r).2 ↔ d.truthy = true)) ∧
    ((reconcileRun m r).unhandled = [] → (checkAgainstBaseline m r).1 = ExitCode.zero) := by
  obtain ⟨tail, hout, hnodata, hnokey⟩ := checkAgainstBaseline_snd m r
  refine ⟨?_, ?_, ?_, ?_⟩
  · intro h
    rw [hout]
    exact List.mem_append_left _ (mem_unmatchedReport_warn m _ h)
  · intro k hk
    rw [hout]
    exact List.mem_append_left _ (mem_unmatchedReport_key m _ k hk)
  · intro k hk d hd
    rw [hout]
    constructor
    · intro h
      rcases List.mem_append.mp h with h1 | h2
      · exact (mem_unmatchedReport_data_iff m _ k d hk hd).mp h1
      · exact absurd h2 (hnodata k d)
    · intro ht
      exact List.mem_append_left _ ((mem_unmatchedReport_data_iff m _ k d hk hd).mpr ht)
  · intro h
    rw [checkAgainstBaseline, if_neg (by simp [h])]

/-- Witness for C9 amended: key `A` matched, key `Z` unmatched with the
truthy annotation `"note"`, nothing unhandled. -/
theorem claim_C9_witness :
    ((reconcileRun [(Json.str "A", Json.null), (Json.str "Z", Json.str "note")]
        [⟨"A", some "lic", some "restricted", some "src"⟩]).unmatched ≠ [] →
      OutLine.warn "Some entries in the baseline did not match anything from dash-licenses output:"
        ∈ (checkAgainstBaseline [(Json.str "A", Json.null), (Json.str "Z", Json.str "note")]
            [⟨"A", some "lic", some "restricted", some "src"⟩]).2) ∧
    (∀ k ∈ (reconcileRun [(Json.str "A", Json.null), (Json.str "Z", Json.str "note")]
        [⟨"A", some "lic", some "restricted", some "src"⟩]).unmatched,
      OutLine.unmatchedKey k
        ∈ (checkAgainstBaseline [(Json.str "A", Json.null), (Json.str "Z", Json.str "note")]
            [⟨"A", some "lic", some "restricted", some "src"⟩]).2) ∧
    (∀ k ∈ (reconcileRun [(Json.str "A", Json.null), (Json.str "Z", Json.str "note")]
        [⟨"A", some "lic", some "restricted", some "src"⟩]).unmatched, ∀ d,
      mapGet [(Json.str "A", Json.null), (Json.str "Z", Json.str "note")] k = some d →
      (OutLine.unmatchedData k d
          ∈ (checkAgainstBaseline [(Json.str "A", Json.null), (Json.str "Z", Json.str "note")]
              [⟨"A", some "lic", some "restricted", some "src"⟩]).2 ↔ d.truthy = true)) ∧
    ((reconcileRun [(Json.str "A", Json.null), (Json.str "Z", Json.str "note")]
        [⟨"A", some "lic", some "restricted", some "src"⟩]).unhandled = [] →
      (checkAgainstBaseline [(Json.str "A", Json.null), (Json.str "Z", Json.str "note")]
          [⟨"A", some "lic", some "restricted", some "src"⟩]).1 = ExitCode.zero) :=
  claim_C9 [(Json.str "A", Json.null), (Json.str "Z", Json.str "note")]
    [⟨"A", some "lic", some "restricted", some "src"⟩]

/-! ## Subprocess failure semantics -/

/-- C7: a scanner process that starts and then exits non-zero or dies on
a signal only adds a warning — the run proceeds to parse the summary and
the final exit code is whatever the baseline check yields — whereas the
download process's non-zero exit or signal aborts immediately with exit
code 1 after the printed error. -/
theorem claim_C7 (lt : String → String → Bool) :
    (∀ w st msg out1, fetchStep w = .ok out1 → w.dashResult = .ok st →
      getErrorFromStatus (statusOf "java" dashArgs st) = some msg →
      runMain lt w =
        ((runCheck lt w.summaryLines w.baselineFile).1,
         out1 ++ backupOut w ++ OutLine.info "Running dash-licenses..."
           :: ([OutLine.warn msg] ++ (runCheck lt w.summaryLines w.baselineFile).2))) ∧
    (∀ w st msg, w.jarExists = false → w.curlResult = .ok st →
      getErrorFromStatus (statusOf "curl" curlArgs st) = some msg →
      runMain lt w = (ExitCode.one,
        [OutLine.info "Fetching dash-licenses...", OutLine.error msg])) := by
  constructor
  · intro w st msg out1 hfetch hdash hmsg
    rw [statusOf] at hmsg
    simp only [runMain, hfetch, hdash, spawn, hmsg]
  · intro w st msg hjar hcurl hmsg
    rw [statusOf] at hmsg
    simp only [runMain, fetchStep, hjar, Bool.false_eq_true, if_false, hcurl, spawn, hmsg]

/-- Witness for C7: a scanner run exiting with code 13 over a clean
summary (final exit 0), and a curl run killed by SIGKILL (exit 1). -/
theorem claim_C7_witness :
    runMain ltString
        ⟨true, Except.ok ⟨none, some 0⟩, false, Except.ok ⟨none, some 13⟩,
         ["a, b, approved, src"], none⟩
      = ((runCheck ltString ["a, b, approved, src"] none).1,
         [] ++ backupOut ⟨true, Except.ok ⟨none, some 0⟩, false, Except.ok ⟨none, some 13⟩,
            ["a, b, approved, src"], none⟩
            ++ OutLine.info "Running dash-licenses..."
           :: ([OutLine.warn ("Command " ++ prettyCommand (statusOf "java" dashArgs ⟨none, some 13⟩)
                  ++ " exited with code: " ++ jsShowStatus (some 13))]
              ++ (runCheck ltString ["a, b, approved, src"] none).2)) ∧
    runMain ltString
        ⟨false, Except.ok ⟨some "SIGKILL", none⟩, false, Except.ok ⟨none, some 0⟩, [], none⟩
      = (ExitCode.one,
         [OutLine.info "Fetching dash-licenses...",
          OutLine.error ("Command " ++ prettyCommand (statusOf "curl" curlArgs ⟨some "SIGKILL", none⟩)
            ++ " exited with signal: " ++ "SIGKILL")]) :=
  ⟨(claim_C7 ltString).1
      ⟨true, Except.ok ⟨none, some 0⟩, false, Except.ok ⟨none, some 13⟩,
       ["a, b, approved, src"], none⟩
      ⟨none, some 13⟩ _ [] rfl rfl rfl,
   (claim_C7 ltString).2
      ⟨false, Except.ok ⟨some "SIGKILL", none⟩, false, Except.ok ⟨none, some 0⟩, [], none⟩
      ⟨some "SIGKILL", none⟩ _ rfl rfl rfl⟩

/-- C10: a subprocess that fails to start at all (spawn error) aborts the
program with exit 1 at every call site — the scanner included, although a
scanner that starts and fails merely warns. -/
theorem claim_C10 (lt : String → String → Bool) :
    (∀ w e, w.jarExists = false → w.curlResult = .error e →
      runMain lt w = (ExitCode.one,
        [OutLine.info "Fetching dash-licenses...", OutLine.error e])) ∧
    (∀ w e out1, fetchStep w = .ok out1 → w.dashResult = .error e →
      runMain lt w = (ExitCode.one,
        out1 ++ backupOut w ++ [OutLine.info "Running dash-licenses...", OutLine.error e])) := by
  constructor
  · intro w e hjar hcurl
    simp only [runMain, fetchStep, hjar, Bool.false_eq_true, if_false, hcurl, spawn]
  · intro w e out1 hfetch hdash
    simp only [runMain, hfetch, hdash, spawn]

/-- Witness for C10: curl and java binaries missing (ENOENT spawn
errors). -/
theorem claim_C10_witness :
    runMain ltString
        ⟨false, Except.error "Error: spawnSync curl ENOENT", false, Except.ok ⟨none, some 0⟩, [], none⟩
      = (ExitCode.one,
         [OutLine.info "Fetching dash-licenses...",
          OutLine.error "Error: spawnSync curl ENOENT"]) ∧
    runMain ltString
        ⟨true, Except.ok ⟨none, some 0⟩, true, Except.error "Error: spawnSync java ENOENT",
         [], none⟩
      = (ExitCode.one,
         [] ++ backupOut ⟨true, Except.ok ⟨none, some 0⟩, true,
            Except.error "Error: spawnSync java ENOENT", [], none⟩
           ++ [OutLine.info "Running dash-licenses...",
               OutLine.error "Error: spawnSync java ENOENT"]) :=
  ⟨(claim_C10 ltString).1
      ⟨false, Except.error "Error: spawnSync curl ENOENT", false, Except.ok ⟨none, some 0⟩, [], none⟩
      "Error: spawnSync curl ENOENT" rfl rfl,
   (claim_C10 ltString).2
      ⟨true, Except.ok ⟨none, some 0⟩, true, Except.error "Error: spawnSync java ENOENT", [], none⟩
      "Error: spawnSync java ENOENT" [] rfl rfl⟩

end ThreePP
